import Mathlib

/-!
# Ripes: the processor tab driving the pipeline

A shallow embedding of `src/processortab.cpp`.  The tab is a Qt widget whose slots mutate
a handful of widgets (buttons, a timer, a slider, a scrollbar), emit two signals
(`update`, `appendToLog`) and call the process-wide `Pipeline` singleton.  Each slot is a
function on an explicit state record; the pipeline, whose class is declared outside the
translated sources, is a record of operations over an abstract state type.
-/

namespace ProcessorTab

set_option linter.dupNamespace false

/-! ## Collaborators declared outside `processortab.cpp` -/

/-- Modelled from the spec: the enumeration `Pipeline::ECALL` (declared in `pipeline.h`).
The spec lists the kinds as `{None, PrintString, PrintInt, …}`; every further kind is
`other`, tagged by a number. -/
inductive ECALL where
  | none
  | print_string
  | print_int
  | other (code : Nat)
  deriving DecidableEq, Repr

/-- The member functions of `Pipeline` that the tab invokes; used to record the order of
the invocations. -/
inductive Call where
  | isReady
  | isFinished
  | getTextSize
  | step
  | run
  | checkEcall (consume : Bool)
  | restart
  deriving DecidableEq, Repr

/-- Modelled from the spec: the control surface of `Pipeline` (section 6), over an abstract
pipeline state `σ`.  `isReady`, `isFinished` and `getTextSize` are pure queries; `step`
returns an integer status code; `run` returns the completion indicator; `checkEcall`
takes the `consume` flag and returns the pair (kind, payload). -/
structure Pipeline (σ : Type) where
  isReady : σ → Bool
  isFinished : σ → Bool
  getTextSize : σ → Int
  step : σ → σ × Int
  run : σ → σ × Bool
  checkEcall : Bool → σ → σ × (ECALL × Int)
  restart : σ → σ

/-- Modelled from the spec: the peek/consume contract of `checkEcall` (section 4.4 and
section 8): a peek leaves the pipeline as it is, a consuming check returns what a peek
would have returned, and after it a peek returns kind `none`. -/
structure Pipeline.PeekConsume {σ : Type} (P : Pipeline σ) : Prop where
  peek_keeps : ∀ s, (P.checkEcall false s).1 = s
  consume_returns : ∀ s, (P.checkEcall true s).2 = (P.checkEcall false s).2
  consume_clears : ∀ s, (P.checkEcall false (P.checkEcall true s).1).2.1 = ECALL.none

/-- The string-decoding query of the parser singleton, `Parser::getStringAt`. -/
structure Parser where
  getStringAt : Int → String

/-- Modelled from the spec: the default value of the `consume` argument of
`checkEcall` (`checkEcall(consume: bool = true)`), used by the call `checkEcall()`. -/
def checkEcall_default : Bool := true

/-- `QString::number` on an integer: its decimal rendering. -/
def QString_number (v : Int) : String := toString v

/-- Arithmetic on C++ `int`: the value of `x` wrapped into 32-bit two's complement. -/
def wrap32 (x : Int) : Int := (x + 2147483648) % 4294967296 - 2147483648

/-! ## State of the tab -/

/-- The widgets and signals touched by the slots of `ProcessorTab`, with the state of the
pipeline singleton.  `calls` records the pipeline member functions invoked so far,
`log` the arguments of `emit appendToLog`, `updates` the number of `emit update()`,
`scrollbar` the arguments of `verticalScrollBar()->setValue`, `delay` the function-local
`const static int delay` of the slider lambda (`none` until first initialised). -/
structure State (σ : Type) where
  pipeline : σ
  calls : List Call
  stepEnabled : Bool
  runEnabled : Bool
  resetEnabled : Bool
  startEnabled : Bool
  tableEnabled : Bool
  startChecked : Bool
  startText : String
  timerActive : Bool
  timerInterval : Int
  execSpeedMin : Int
  execSpeedMax : Int
  execSpeedValue : Int
  delay : Option Int
  log : List String
  updates : Nat
  scrollbar : List Int

variable {σ : Type}

/-- Record `emit update()`.  The slots connected to the signal (lines 32-33 and 87-88)
refresh the register, pipeline and instruction views. -/
def emit_update (st : State σ) : State σ :=
  { st with updates := st.updates + 1 }

/-- Record `emit appendToLog(s)`. -/
def emit_appendToLog (s : String) (st : State σ) : State σ :=
  { st with log := st.log ++ [s] }

/-- Record the invocation of a pipeline member function. -/
def called (c : Call) (st : State σ) : State σ :=
  { st with calls := st.calls ++ [c] }

/-! ## The slots -/

/-- The slider lambda connected to `execSpeed->valueChanged` (lines 19-23). -/
def execSpeed_valueChanged (pos : Int) (st : State σ) : State σ :=
  let delay := match st.delay with
    | some d => d
    | none => wrap32 (st.execSpeedMax + st.execSpeedMin)
  { st with delay := some delay, timerInterval := wrap32 (delay - pos) }

/-- The body of `ProcessorTab::toggleTimer` (lines 43-57), over the behaviour of
`m_ui->start->setChecked`. -/
def toggleTimerBody (setChecked : Bool → State σ → State σ) (state : Bool)
    (st : State σ) : State σ :=
  let st :=
    if state then
      let st := { st with startText := "Stop autostepping (F5)" }
      { st with timerActive := true }
    else
      let st := { st with startText := "Start autostepping (F5)" }
      let st := setChecked false st
      { st with timerActive := false }
  { st with stepEnabled := !state }

/-- The slot `toggleTimer` as run from the `toggled` signal of `start`: the button already
holds the value `state`, so a `setChecked(false)` reached with `state = false` changes
nothing and emits nothing. -/
def toggleTimer_fromSignal (state : Bool) (st : State σ) : State σ :=
  toggleTimerBody (fun b s => { s with startChecked := b }) state st

/-- The call `m_ui->start->setChecked(b)`: when the checked state changes, `toggled(b)` is
emitted, which is connected to `toggleTimer` (line 16). -/
def start_setChecked (b : Bool) (st : State σ) : State σ :=
  if st.startChecked = b then st
  else toggleTimer_fromSignal b { st with startChecked := b }

/-- The lambda connected to `reset->clicked` (line 26). -/
def reset_clicked (st : State σ) : State σ :=
  start_setChecked false st

/-- `ProcessorTab::toggleTimer` (lines 43-57). -/
def toggleTimer (state : Bool) (st : State σ) : State σ :=
  toggleTimerBody start_setChecked state st

/-- The constructor (lines 12-41), from the state left by `setupUi`. -/
def ProcessorTab (st : State σ) : State σ :=
  let st := execSpeed_valueChanged st.execSpeedValue st
  let st := { st with resetEnabled := false }
  let st := { st with stepEnabled := false }
  let st := { st with runEnabled := false }
  let st := { st with startEnabled := false }
  { st with tableEnabled := false }

/-- `ProcessorTab::restart` (lines 59-69). -/
def restart (P : Pipeline σ) (st : State σ) : State σ :=
  let st := emit_update st
  let st := called Call.getTextSize st
  let pipelineReady : Bool := decide (P.getTextSize st.pipeline > 0)
  let st := { st with stepEnabled := pipelineReady }
  let st := { st with runEnabled := pipelineReady }
  let st := { st with resetEnabled := pipelineReady }
  let st := { st with startEnabled := pipelineReady }
  { st with tableEnabled := pipelineReady }

/-- `ProcessorTab::handleEcall` (lines 171-188).  The `print_string` case has no `break`,
so control falls through into the `print_int` case. -/
def handleEcall (P : Pipeline σ) (parser : Parser) (st : State σ) : State σ :=
  let r := P.checkEcall checkEcall_default st.pipeline
  let st := called (Call.checkEcall checkEcall_default) { st with pipeline := r.1 }
  let ecall_val := r.2
  if ecall_val.1 ≠ ECALL.none then
    match ecall_val.1 with
    | ECALL.print_string =>
      let st := emit_appendToLog (parser.getStringAt ecall_val.2) st
      emit_appendToLog (QString_number ecall_val.2) st
    | ECALL.print_int =>
      emit_appendToLog (QString_number ecall_val.2) st
    | _ => st
  else st

/-- `ProcessorTab::on_run_clicked` (lines 107-124).  The slot calls itself after handling
an ecall; `fuel` bounds the number of nested invocations, `none` meaning the bound was
reached. -/
def on_run_clicked (P : Pipeline σ) (parser : Parser) : Nat → State σ → Option (State σ)
  | 0, _ => none
  | fuel + 1, st =>
    let st := called Call.isReady st
    if P.isReady st.pipeline then
      let r := P.run st.pipeline
      let st := called Call.run { st with pipeline := r.1 }
      -- `run() && isFinished()`: the right operand is evaluated only after `true`
      let st := if r.2 then called Call.isFinished st else st
      if r.2 && P.isFinished st.pipeline then
        let st := emit_update st
        let st := { st with stepEnabled := false }
        let st := { st with startEnabled := false }
        some { st with runEnabled := false }
      else
        let e := P.checkEcall false st.pipeline
        let st := called (Call.checkEcall false) { st with pipeline := e.1 }
        if e.2.1 ≠ ECALL.none then
          let st := handleEcall P parser st
          on_run_clicked P parser fuel st
        else
          let st := { st with tableEnabled := true }
          some (emit_update st)
    else some st

/-- `ProcessorTab::on_reset_clicked` (lines 126-134). -/
def on_reset_clicked (P : Pipeline σ) (st : State σ) : State σ :=
  let st := called Call.restart { st with pipeline := P.restart st.pipeline }
  let st := emit_update st
  let st := { st with stepEnabled := true }
  let st := { st with startEnabled := true }
  let st := { st with runEnabled := true }
  { st with tableEnabled := true }

/-- `ProcessorTab::setCurrentInstruction` (lines 136-150).  `indexTop` and `indexBot` are
the rows returned by `instructionView->indexAt` at the top-left and bottom-left corner;
`/` on `int` truncates toward zero, and both subtractions are `int` operations. -/
def setCurrentInstruction (indexTop indexBot : Int) (row : Int) (st : State σ) : State σ :=
  let nItems := wrap32 (indexBot - indexTop)
  if row ≤ indexTop ∨ row ≥ indexBot then
    { st with scrollbar := st.scrollbar ++ [wrap32 (row - Int.tdiv nItems 2)] }
  else st

/-- `ProcessorTab::on_step_clicked` (lines 152-169). -/
def on_step_clicked (P : Pipeline σ) (parser : Parser) (st : State σ) : State σ :=
  let r := P.step st.pipeline
  let st := called Call.step { st with pipeline := r.1 }
  let state := r.2
  let st := handleEcall P parser st
  let st := emit_update st
  let st := called Call.isFinished st
  if P.isFinished st.pipeline then
    let st := { st with stepEnabled := false }
    let st := { st with startEnabled := false }
    { st with runEnabled := false }
  else if state = 1 then
    toggleTimer false st
  else st

/-! ## A scripted pipeline

A small concrete pipeline, used to evaluate the slots on concrete runs.  Each entry of
`script` describes what the next `step()` or `run()` leaves behind. -/

/-- One scripted advance: the status code `step()` returns, the ecall request raised, and
whether the pipeline is finished afterwards. -/
structure Cycle where
  status : Int
  ecall : ECALL × Int
  finished : Bool

/-- State of the scripted pipeline. -/
structure Sim where
  textSize : Int
  ready : Bool
  finished : Bool
  pending : ECALL × Int
  script : List Cycle

/-- The scripted pipeline: `step` and `run` play the next entry of the script (an empty
script finishes), `checkEcall` returns the pending request and clears it when consuming. -/
def simPipeline : Pipeline Sim where
  isReady s := s.ready
  isFinished s := s.finished
  getTextSize s := s.textSize
  step s :=
    match s.script with
    | [] => ({ s with finished := true }, 0)
    | c :: rest => ({ s with pending := c.ecall, finished := c.finished, script := rest }, c.status)
  run s :=
    match s.script with
    | [] => ({ s with finished := true }, true)
    | c :: rest => ({ s with pending := c.ecall, finished := c.finished, script := rest }, c.finished)
  checkEcall consume s :=
    (if consume then { s with pending := (ECALL.none, 0) } else s, s.pending)
  restart s := { s with finished := false, pending := (ECALL.none, 0) }

/-- A parser whose only string, "hi", lives at address 4096. -/
def simParser : Parser where
  getStringAt a := if a = 4096 then "hi" else ""

/-- A loaded, ready scripted pipeline with the given pending request and script. -/
def simReady (pending : ECALL × Int) (script : List Cycle) : Sim :=
  { textSize := 16, ready := true, finished := false, pending := pending, script := script }

/-- The tab as left by `setupUi` around the pipeline state `s`: slider range `[1, 1000]`
at position 500, nothing logged, every button enabled and `start` unchecked. -/
def simTab (s : Sim) : State Sim :=
  { pipeline := s, calls := [], stepEnabled := true, runEnabled := true,
    resetEnabled := true, startEnabled := true, tableEnabled := true,
    startChecked := false, startText := "Start autostepping (F5)", timerActive := false,
    timerInterval := 0, execSpeedMin := 1, execSpeedMax := 1000, execSpeedValue := 500,
    delay := none, log := [], updates := 0, scrollbar := [] }

/-! ## `handleEcall` -/

/-- C1 (as the code behaves): when the consuming `checkEcall` returns a `print_string`
request with payload address `a`, `handleEcall` appends two entries to the log, the
decoded string `getStringAt(a)` followed by the decimal rendering of the address `a`
itself, because the `print_string` case falls through into the `print_int` case. -/
theorem C1_print_string_falls_through (P : Pipeline σ) (parser : Parser) (st : State σ)
    (a : Int) (h : (P.checkEcall true st.pipeline).2 = (ECALL.print_string, a)) :
    (handleEcall P parser st).log = st.log ++ [parser.getStringAt a, QString_number a] ∧
      (handleEcall P parser st).log.length = st.log.length + 2 := by
  have hlog : (handleEcall P parser st).log
      = st.log ++ [parser.getStringAt a, QString_number a] := by
    simp [handleEcall, checkEcall_default, h, emit_appendToLog, called]
  exact ⟨hlog, by simp [hlog]⟩

/-- C1 at a concrete input: with the request `(print_string, 4096)` pending and "hi"
stored at 4096, the log receives "hi" and then "4096". -/
theorem C1_print_string_falls_through_witness :
    (simPipeline.checkEcall true (simTab (simReady (ECALL.print_string, 4096) [])).pipeline).2
        = (ECALL.print_string, 4096) ∧
      (handleEcall simPipeline simParser (simTab (simReady (ECALL.print_string, 4096) []))).log
        = ["hi", "4096"] :=
  ⟨rfl, (C1_print_string_falls_through simPipeline simParser
    (simTab (simReady (ECALL.print_string, 4096) [])) 4096 rfl).1⟩

/-- C5: when the consuming `checkEcall` returns a request whose kind is `none` or any
kind other than `print_string` and `print_int`, `handleEcall` returns having done nothing
but that one consuming check: the log, the update count and every widget are as before. -/
theorem C5_handleEcall_ignores_other_kinds (P : Pipeline σ) (parser : Parser)
    (st : State σ)
    (hs : (P.checkEcall true st.pipeline).2.1 ≠ ECALL.print_string)
    (hi : (P.checkEcall true st.pipeline).2.1 ≠ ECALL.print_int) :
    handleEcall P parser st
        = called (Call.checkEcall true)
            { st with pipeline := (P.checkEcall true st.pipeline).1 } ∧
      (handleEcall P parser st).log = st.log := by
  have key : handleEcall P parser st
      = called (Call.checkEcall true)
          { st with pipeline := (P.checkEcall true st.pipeline).1 } := by
    unfold handleEcall
    simp only [checkEcall_default]
    cases hk : (P.checkEcall true st.pipeline).2.1 with
    | none => simp
    | print_string => exact absurd hk hs
    | print_int => exact absurd hk hi
    | other c => simp
  exact ⟨key, by rw [key]; rfl⟩

/-- C5 at a concrete input: a request of an unrecognised kind (code 10) leaves the log
empty. -/
theorem C5_handleEcall_ignores_other_kinds_witness :
    (handleEcall simPipeline simParser (simTab (simReady (ECALL.other 10, 7) []))).log = [] :=
  (C5_handleEcall_ignores_other_kinds simPipeline simParser
    (simTab (simReady (ECALL.other 10, 7) [])) (by decide) (by decide)).2

/-- C6: when the consuming `checkEcall` returns a `print_int` request with payload `v`,
`handleEcall` appends exactly one entry to the log, the decimal rendering of `v`,
whatever the parser holds at address `v`. -/
theorem C6_print_int_appends_number (P : Pipeline σ) (parser : Parser) (st : State σ)
    (v : Int) (h : (P.checkEcall true st.pipeline).2 = (ECALL.print_int, v)) :
    (handleEcall P parser st).log = st.log ++ [toString v] ∧
      (handleEcall P parser st).log.length = st.log.length + 1 := by
  have hlog : (handleEcall P parser st).log = st.log ++ [toString v] := by
    simp [handleEcall, checkEcall_default, h, emit_appendToLog, called, QString_number]
  exact ⟨hlog, by simp [hlog]⟩

/-- C6 at a concrete input: the request `(print_int, 4096)` logs "4096" and not the string
"hi" stored at address 4096; a negative payload is rendered with its sign. -/
theorem C6_print_int_appends_number_witness :
    (handleEcall simPipeline simParser (simTab (simReady (ECALL.print_int, 4096) []))).log
        = ["4096"] ∧
      (handleEcall simPipeline simParser (simTab (simReady (ECALL.print_int, -12) []))).log
        = ["-12"] :=
  ⟨(C6_print_int_appends_number simPipeline simParser
      (simTab (simReady (ECALL.print_int, 4096) [])) 4096 rfl).1,
   (C6_print_int_appends_number simPipeline simParser
      (simTab (simReady (ECALL.print_int, -12) [])) (-12) rfl).1⟩

/-! ## `on_run_clicked` -/

/-- The scripted pipeline obeys the peek/consume contract. -/
theorem simPipeline_peekConsume : simPipeline.PeekConsume :=
  ⟨fun _ => rfl, fun _ => rfl, fun _ => rfl⟩

/-- C4: when `isReady()` is false, `on_run_clicked` returns after that one query: the
pipeline is asked nothing else (no `run`, no `checkEcall`) and keeps its state, nothing is
logged, no update is emitted, and the enabled state of every button is as before. -/
theorem C4_run_refuses_when_not_ready (P : Pipeline σ) (parser : Parser) (st : State σ)
    (fuel : Nat) (h : P.isReady st.pipeline = false) :
    ∃ st1 : State σ, on_run_clicked P parser (fuel + 1) st = some st1 ∧
      st1.calls = st.calls ++ [Call.isReady] ∧ st1.pipeline = st.pipeline ∧
      st1.log = st.log ∧ st1.updates = st.updates ∧
      st1.stepEnabled = st.stepEnabled ∧ st1.runEnabled = st.runEnabled ∧
      st1.resetEnabled = st.resetEnabled ∧ st1.startEnabled = st.startEnabled ∧
      st1.tableEnabled = st.tableEnabled := by
  refine ⟨called Call.isReady st, ?_, rfl, rfl, rfl, rfl, rfl, rfl, rfl, rfl, rfl⟩
  simp [on_run_clicked, called, h]

/-- C4 at a concrete input: a scripted pipeline that is not ready, with an ecall pending
and a script left to run. -/
theorem C4_run_refuses_when_not_ready_witness :
    ∃ st1 : State Sim,
      on_run_clicked simPipeline simParser 1
          (simTab { simReady (ECALL.print_int, 5) [⟨0, (ECALL.print_int, 6), false⟩]
                    with ready := false }) = some st1 ∧
      st1.calls = [Call.isReady] ∧
      st1.pipeline = { simReady (ECALL.print_int, 5) [⟨0, (ECALL.print_int, 6), false⟩]
                       with ready := false } ∧
      st1.log = [] ∧ st1.updates = 0 ∧
      st1.stepEnabled = true ∧ st1.runEnabled = true ∧
      st1.resetEnabled = true ∧ st1.startEnabled = true ∧
      st1.tableEnabled = true :=
  C4_run_refuses_when_not_ready simPipeline simParser
    (simTab { simReady (ECALL.print_int, 5) [⟨0, (ECALL.print_int, 6), false⟩]
              with ready := false }) 0 rfl

/-! ### The schedule of a run interrupted by ecalls

The claim about a run interrupted by ecalls is stated against an explicit schedule: what
the pipeline is asked, and what is logged, when `run()` stops early with a request a given
number of times in a row. -/

/-- The condition of the ecall branch of `on_run_clicked` (lines 109-115) at pipeline
state `s`: the pipeline is ready, `run() && isFinished()` is false, and the peek after
`run()` shows a kind other than `none`. -/
def stopsWithEcall (P : Pipeline σ) (s : σ) : Bool :=
  P.isReady s && !((P.run s).2 && P.isFinished (P.run s).1) &&
    decide ((P.checkEcall false (P.run s).1).2.1 ≠ ECALL.none)

/-- The pipeline state once an early stop has been handled: `run()`, then one consuming
`checkEcall`. -/
def afterStop (P : Pipeline σ) (s : σ) : σ :=
  (P.checkEcall true (P.run s).1).1

/-- From `s`, `run()` stops early with a request exactly `n` times in a row, each stop
being handled before the next `run()`, and the invocation after the last stop does not
take the ecall branch. -/
def stopsExactly (P : Pipeline σ) : Nat → σ → Bool
  | 0, s => !stopsWithEcall P s
  | n + 1, s => stopsWithEcall P s && stopsExactly P n (afterStop P s)

/-- The pipeline calls of an invocation that handles an early stop: `isReady`, `run`,
`isFinished` when `run` returned true, the peek, one consuming check. -/
def stopCalls (P : Pipeline σ) (s : σ) : List Call :=
  [Call.isReady, Call.run] ++ (if (P.run s).2 then [Call.isFinished] else [])
    ++ [Call.checkEcall false, Call.checkEcall true]

/-- The pipeline calls of an invocation that does not take the ecall branch: `isReady`
alone when not ready; otherwise `run`, `isFinished` when `run` returned true, and the peek
unless the finished branch is taken. -/
def lastCalls (P : Pipeline σ) (s : σ) : List Call :=
  if P.isReady s then
    [Call.isReady, Call.run] ++ (if (P.run s).2 then [Call.isFinished] else [])
      ++ (if (P.run s).2 && P.isFinished (P.run s).1 then [] else [Call.checkEcall false])
  else [Call.isReady]

/-- The pipeline calls of `n` handled stops followed by a last invocation. -/
def scheduleCalls (P : Pipeline σ) : Nat → σ → List Call
  | 0, s => lastCalls P s
  | n + 1, s => stopCalls P s ++ scheduleCalls P n (afterStop P s)

/-- The entries the switch of `handleEcall` (lines 175-186) logs for a request. -/
def ecallOutput (parser : Parser) (req : ECALL × Int) : List String :=
  match req.1 with
  | ECALL.print_string => [parser.getStringAt req.2, QString_number req.2]
  | ECALL.print_int => [QString_number req.2]
  | _ => []

/-- The log entries of `n` handled stops: for each stop, what `handleEcall` logs for the
request the peek showed. -/
def scheduleLog (P : Pipeline σ) (parser : Parser) : Nat → σ → List String
  | 0, _ => []
  | n + 1, s => ecallOutput parser (P.checkEcall false (P.run s).1).2
      ++ scheduleLog P parser n (afterStop P s)

/-- `handleEcall` asks the pipeline one consuming `checkEcall` and nothing else. -/
theorem handleEcall_calls (P : Pipeline σ) (parser : Parser) (q : State σ) :
    (handleEcall P parser q).calls = q.calls ++ [Call.checkEcall true] := by
  unfold handleEcall
  simp only [checkEcall_default]
  split
  · split <;> rfl
  · rfl

/-- `handleEcall` leaves the pipeline as the consuming `checkEcall` left it. -/
theorem handleEcall_pipeline (P : Pipeline σ) (parser : Parser) (q : State σ) :
    (handleEcall P parser q).pipeline = (P.checkEcall true q.pipeline).1 := by
  unfold handleEcall
  simp only [checkEcall_default]
  split
  · split <;> rfl
  · rfl

/-- `handleEcall` logs the entries of the request its consuming `checkEcall` returned. -/
theorem handleEcall_log (P : Pipeline σ) (parser : Parser) (q : State σ) :
    (handleEcall P parser q).log
      = q.log ++ ecallOutput parser (P.checkEcall true q.pipeline).2 := by
  unfold handleEcall ecallOutput
  simp only [checkEcall_default]
  cases hk : (P.checkEcall true q.pipeline).2.1 <;>
    simp [emit_appendToLog, called]

/-- The schedule of `n` handled stops holds exactly `n` consuming checks. -/
theorem scheduleCalls_count_consume (P : Pipeline σ) (n : Nat) (s : σ) :
    (scheduleCalls P n s).count (Call.checkEcall true) = n := by
  induction n generalizing s with
  | zero =>
    simp only [scheduleCalls, lastCalls]
    cases P.isReady s <;> cases (P.run s).2 <;> cases P.isFinished (P.run s).1 <;> decide
  | succ n ih =>
    simp only [scheduleCalls, List.count_append, ih, stopCalls]
    cases (P.run s).2 <;> simp +arith +decide

/-- An invocation of `on_run_clicked` that does not take the ecall branch returns, having
asked the pipeline the calls of `lastCalls` and logged nothing. -/
theorem on_run_clicked_last (P : Pipeline σ) (parser : Parser) (fuel : Nat)
    (st : State σ) (h : stopsWithEcall P st.pipeline = false) :
    ∃ fin : State σ, on_run_clicked P parser (fuel + 1) st = some fin ∧
      fin.calls = st.calls ++ lastCalls P st.pipeline ∧ fin.log = st.log := by
  unfold stopsWithEcall at h
  cases hready : P.isReady st.pipeline with
  | false =>
    simp [on_run_clicked, called, lastCalls, hready]
  | true =>
    cases hr : (P.run st.pipeline).2 with
    | false =>
      have hnone : (P.checkEcall false (P.run st.pipeline).1).2.1 = ECALL.none := by
        simpa [hready, hr] using h
      simp [on_run_clicked, called, emit_update, lastCalls, hready, hr, hnone]
    | true =>
      cases hf : P.isFinished (P.run st.pipeline).1 with
      | true =>
        simp [on_run_clicked, called, emit_update, lastCalls, hready, hr, hf]
      | false =>
        have hnone : (P.checkEcall false (P.run st.pipeline).1).2.1 = ECALL.none := by
          simpa [hready, hr, hf] using h
        simp [on_run_clicked, called, emit_update, lastCalls, hready, hr, hf, hnone]

/-- An invocation of `on_run_clicked` that takes the ecall branch continues as a fresh
invocation from the state `handleEcall` leaves; over the peek/consume contract that state
holds the calls of `stopCalls`, the pipeline of `afterStop`, and the log entries of the
request the peek showed. -/
theorem on_run_clicked_stop (P : Pipeline σ) (hP : P.PeekConsume) (parser : Parser)
    (st : State σ) (h : stopsWithEcall P st.pipeline = true) :
    ∃ pre mid : State σ,
      (∀ fuel : Nat,
        on_run_clicked P parser (fuel + 1) st = on_run_clicked P parser fuel mid) ∧
      mid = handleEcall P parser pre ∧
      pre.pipeline = (P.run st.pipeline).1 ∧
      pre.calls = st.calls ++ [Call.isReady, Call.run]
        ++ (if (P.run st.pipeline).2 then [Call.isFinished] else [])
        ++ [Call.checkEcall false] ∧
      pre.log = st.log ∧
      mid.calls = st.calls ++ stopCalls P st.pipeline ∧
      mid.pipeline = afterStop P st.pipeline ∧
      mid.log = st.log ++ ecallOutput parser (P.checkEcall false (P.run st.pipeline).1).2 := by
  unfold stopsWithEcall at h
  simp only [Bool.and_eq_true, Bool.not_eq_true', decide_eq_true_eq] at h
  obtain ⟨⟨hready, hearly⟩, hpend⟩ := h
  have hkeep := hP.peek_keeps (P.run st.pipeline).1
  cases hr : (P.run st.pipeline).2 with
  | false =>
    refine ⟨called (Call.checkEcall false)
        { (called Call.run { (called Call.isReady st) with
            pipeline := (P.run st.pipeline).1 }) with
          pipeline := (P.run st.pipeline).1 }, _, ?_, rfl, rfl, ?_, rfl, ?_, ?_, ?_⟩
    · intro fuel
      simp [on_run_clicked, called, hready, hr, hpend, hkeep]
    · simp [called]
    · rw [handleEcall_calls]; simp [called, stopCalls, hr]
    · rw [handleEcall_pipeline]; rfl
    · rw [handleEcall_log, hP.consume_returns]; rfl
  | true =>
    have hfin : P.isFinished (P.run st.pipeline).1 = false := by
      simpa [hr] using hearly
    refine ⟨called (Call.checkEcall false)
        { (called Call.isFinished (called Call.run { (called Call.isReady st) with
            pipeline := (P.run st.pipeline).1 })) with
          pipeline := (P.run st.pipeline).1 }, _, ?_, rfl, rfl, ?_, rfl, ?_, ?_, ?_⟩
    · intro fuel
      simp [on_run_clicked, called, hready, hr, hpend, hkeep, hfin]
    · simp [called]
    · rw [handleEcall_calls]; simp [called, stopCalls, hr]
    · rw [handleEcall_pipeline]; rfl
    · rw [handleEcall_log, hP.consume_returns]; rfl

/-- A run that stops early with a request exactly `n` times returns once `n + 1` nested
invocations are allowed, having followed the schedule. -/
theorem on_run_clicked_schedule (P : Pipeline σ) (hP : P.PeekConsume) (parser : Parser)
    (fuel n : Nat) (st : State σ) (h : stopsExactly P n st.pipeline = true) :
    ∃ fin : State σ, on_run_clicked P parser (fuel + n + 1) st = some fin ∧
      fin.calls = st.calls ++ scheduleCalls P n st.pipeline ∧
      fin.log = st.log ++ scheduleLog P parser n st.pipeline := by
  induction n generalizing st with
  | zero =>
    have h0 : stopsWithEcall P st.pipeline = false := by
      simpa [stopsExactly] using h
    obtain ⟨fin, hfin, hc, hl⟩ := on_run_clicked_last P parser fuel st h0
    exact ⟨fin, hfin, by simpa [scheduleCalls] using hc, by simpa [scheduleLog] using hl⟩
  | succ n ih =>
    simp only [stopsExactly, Bool.and_eq_true] at h
    obtain ⟨hstop, hrest⟩ := h
    obtain ⟨pre, mid, hstep, -, -, -, -, hmc, hmp, hml⟩ :=
      on_run_clicked_stop P hP parser st hstop
    rw [← hmp] at hrest
    obtain ⟨fin, hfin, hc, hl⟩ := ih mid hrest
    refine ⟨fin, ?_, ?_, ?_⟩
    · have := hstep (fuel + n + 1)
      rw [← hfin, ← this]
      rfl
    · rw [hc, hmc, hmp]; simp [scheduleCalls]
    · rw [hl, hml, hmp]; simp [scheduleLog]

/-- C2: over a pipeline obeying the peek/consume contract, let the pipeline be ready,
`run()` not end in the finished branch, and the peek after it show a request of a kind
other than `none`; let `run()` stop like this `n` more times before an invocation that
does not take the ecall branch.  Then `on_run_clicked`, allowed `n + 2` nested
invocations, returns.  Before its second invocation it has asked the pipeline `isReady`,
`run`, (`isFinished` when `run` returned true), the peek and exactly one consuming
`checkEcall`, made by `handleEcall` on the pipeline state `run()` left and returning the
very request the peek showed, whose entries are logged; after it no request is pending.
The second invocation starts from that state, and the whole run holds one consuming check
per stop (`n + 1` in all), each after its own `run()`, and logs the entries of each
request once. -/
theorem C2_run_handles_pending_ecall_once (P : Pipeline σ) (hP : P.PeekConsume)
    (parser : Parser) (st : State σ) (fuel n : Nat)
    (hready : P.isReady st.pipeline = true)
    (hearly : ((P.run st.pipeline).2 && P.isFinished (P.run st.pipeline).1) = false)
    (hpend : (P.checkEcall false (P.run st.pipeline).1).2.1 ≠ ECALL.none)
    (hrest : stopsExactly P n (afterStop P st.pipeline) = true) :
    ∃ pre mid fin : State σ,
      on_run_clicked P parser (fuel + n + 2) st = some fin ∧
      (∀ k : Nat, on_run_clicked P parser (k + 1) st = on_run_clicked P parser k mid) ∧
      mid = handleEcall P parser pre ∧
      pre.pipeline = (P.run st.pipeline).1 ∧
      pre.calls = st.calls ++ [Call.isReady, Call.run]
        ++ (if (P.run st.pipeline).2 then [Call.isFinished] else [])
        ++ [Call.checkEcall false] ∧
      pre.log = st.log ∧
      mid.calls = pre.calls ++ [Call.checkEcall true] ∧
      mid.pipeline = (P.checkEcall true (P.run st.pipeline).1).1 ∧
      (P.checkEcall true pre.pipeline).2 = (P.checkEcall false (P.run st.pipeline).1).2 ∧
      mid.log = st.log ++ ecallOutput parser (P.checkEcall false (P.run st.pipeline).1).2 ∧
      (P.checkEcall false mid.pipeline).2.1 = ECALL.none ∧
      (P.checkEcall true mid.pipeline).2.1 = ECALL.none ∧
      fin.calls = mid.calls ++ scheduleCalls P n mid.pipeline ∧
      fin.log = mid.log ++ scheduleLog P parser n mid.pipeline ∧
      fin.calls.count (Call.checkEcall true)
        = st.calls.count (Call.checkEcall true) + (n + 1) := by
  have hstop : stopsWithEcall P st.pipeline = true := by
    simp [stopsWithEcall, hready, hearly, hpend]
  obtain ⟨pre, mid, hstep, hmid, hpp, hpc, hpl, hmc, hmp, hml⟩ :=
    on_run_clicked_stop P hP parser st hstop
  rw [← hmp] at hrest
  obtain ⟨fin, hfin, hc, hl⟩ := on_run_clicked_schedule P hP parser fuel n mid hrest
  have hmc2 : mid.calls = pre.calls ++ [Call.checkEcall true] := by
    rw [hmid, handleEcall_calls]
  refine ⟨pre, mid, fin, ?_, hstep, hmid, hpp, hpc, hpl, hmc2, hmp, ?_, hml, ?_, ?_,
    hc, hl, ?_⟩
  · rw [← hfin, ← hstep (fuel + n + 1)]
  · rw [hpp]; exact hP.consume_returns _
  · rw [hmp]; exact hP.consume_clears _
  · rw [hmp, afterStop, hP.consume_returns]; exact hP.consume_clears _
  · rw [hc, hmc, List.count_append, List.count_append, scheduleCalls_count_consume,
      stopCalls]
    cases (P.run st.pipeline).2 <;> simp +arith +decide

/-- A ready scripted pipeline whose `run()` stops early twice, first with the request
`(print_string, 4096)` and then with `(print_int, 7)`, and then runs to the end; shown in
the tab left by `setupUi`. -/
def simRunTab : State Sim :=
  simTab (simReady (ECALL.none, 0)
    [⟨0, (ECALL.print_string, 4096), false⟩, ⟨0, (ECALL.print_int, 7), false⟩])

/-- C2 at a concrete input: the scripted pipeline stops its first `run()` with the request
`(print_string, 4096)` pending, its second with `(print_int, 7)`, and finishes in the
third; the slot returns, with two consuming checks, each after its own `run()` and peek,
and the entries of each request logged once. -/
theorem C2_run_handles_pending_ecall_once_witness :
    ∃ fin : State Sim, on_run_clicked simPipeline simParser 3 simRunTab = some fin ∧
      fin.calls = [Call.isReady, Call.run, Call.checkEcall false, Call.checkEcall true,
        Call.isReady, Call.run, Call.checkEcall false, Call.checkEcall true,
        Call.isReady, Call.run, Call.isFinished] ∧
      fin.log = ["hi", "4096", "7"] ∧
      fin.calls.count (Call.checkEcall true) = 2 := by
  obtain ⟨pre, mid, fin, hfin, -, -, -, hpc, -, hmc, hmp, -, hml, -, -, hc, hl, hn⟩ :=
    C2_run_handles_pending_ecall_once simPipeline simPipeline_peekConsume simParser
      simRunTab 0 1 rfl rfl (by decide) rfl
  refine ⟨fin, hfin, ?_, ?_, hn⟩
  · rw [hc, hmc, hpc, hmp]; rfl
  · rw [hl, hml, hmp]; rfl

/-! ## Finished pipeline and breakpoints -/

/-- C10: when `isFinished()` is true after the `step()` of `on_step_clicked` (and the
consuming `checkEcall` of `handleEcall`), then for every status code `step()` returned
the step, start and run buttons are disabled on return, exactly one update has been
emitted, and the timer, the checked state and the text of `start` are as before
(`toggleTimer` has not run); when the pipeline is ready, `run()` returns true and
`isFinished()` is true after it, `on_run_clicked` returns with the step, start and run
buttons disabled and exactly one update emitted. -/
theorem C10_finished_disables_controls (P : Pipeline σ) (parser : Parser) (st : State σ) :
    (P.isFinished (P.checkEcall true (P.step st.pipeline).1).1 = true →
      (on_step_clicked P parser st).stepEnabled = false ∧
      (on_step_clicked P parser st).startEnabled = false ∧
      (on_step_clicked P parser st).runEnabled = false ∧
      (on_step_clicked P parser st).updates = st.updates + 1 ∧
      (on_step_clicked P parser st).timerActive = st.timerActive ∧
      (on_step_clicked P parser st).startChecked = st.startChecked ∧
      (on_step_clicked P parser st).startText = st.startText) ∧
    (∀ fuel : Nat, P.isReady st.pipeline = true → (P.run st.pipeline).2 = true →
      P.isFinished (P.run st.pipeline).1 = true →
      ∃ st1 : State σ, on_run_clicked P parser (fuel + 1) st = some st1 ∧
        st1.stepEnabled = false ∧ st1.startEnabled = false ∧ st1.runEnabled = false ∧
        st1.updates = st.updates + 1) := by
  have hpipe : ∀ (q : State σ), (handleEcall P parser q).pipeline
      = (P.checkEcall true q.pipeline).1 := by
    intro q
    unfold handleEcall
    simp only [checkEcall_default]
    split
    · split <;> rfl
    · rfl
  have hframe : ∀ (q : State σ), (handleEcall P parser q).updates = q.updates ∧
      (handleEcall P parser q).timerActive = q.timerActive ∧
      (handleEcall P parser q).startChecked = q.startChecked ∧
      (handleEcall P parser q).startText = q.startText := by
    intro q
    unfold handleEcall
    simp only [checkEcall_default]
    split
    · split <;> exact ⟨rfl, rfl, rfl, rfl⟩
    · exact ⟨rfl, rfl, rfl, rfl⟩
  constructor
  · intro hfin
    have hfin2 : P.isFinished (handleEcall P parser
        (called Call.step { st with pipeline := (P.step st.pipeline).1 })).pipeline
          = true := by
      rw [hpipe]; exact hfin
    obtain ⟨hu, ht, hc, hx⟩ := hframe
      (called Call.step { st with pipeline := (P.step st.pipeline).1 })
    simp only [on_step_clicked, emit_update, called] at hfin2 ⊢
    simp only [called] at hu ht hc hx
    simp [hfin2, hu, ht, hc, hx]
  · intro fuel hready hrun hfin
    simp [on_run_clicked, called, emit_update, hready, hrun, hfin]

/-- C10 at a concrete input: autostepping is on, the last `step()` returns status code 1
and leaves the pipeline finished; and a `run()` that plays an empty script to the end. -/
theorem C10_finished_disables_controls_witness :
    ((on_step_clicked simPipeline simParser
        { simTab (simReady (ECALL.none, 0) [⟨1, (ECALL.none, 0), true⟩]) with
          startChecked := true, timerActive := true, stepEnabled := false }).timerActive
        = true) ∧
    (∃ st1 : State Sim,
      on_run_clicked simPipeline simParser 1 (simTab (simReady (ECALL.none, 0) []))
        = some st1 ∧
      st1.stepEnabled = false ∧ st1.startEnabled = false ∧ st1.runEnabled = false ∧
      st1.updates = 0 + 1) :=
  ⟨((C10_finished_disables_controls simPipeline simParser
      { simTab (simReady (ECALL.none, 0) [⟨1, (ECALL.none, 0), true⟩]) with
        startChecked := true, timerActive := true, stepEnabled := false }).1 rfl).2.2.2.2.1,
   (C10_finished_disables_controls simPipeline simParser
      (simTab (simReady (ECALL.none, 0) []))).2 0 rfl rfl rfl⟩

/-- C3 fails as stated: autostepping is on, `step()` returns status code 1 and the
pipeline is finished after it; on return the timer is still running, `start` is still
checked and the step button is disabled. -/
theorem C3_breakpoint_when_finished_counterexample :
    (simPipeline.step (simReady (ECALL.none, 0) [⟨1, (ECALL.none, 0), true⟩])).2 = 1 ∧
    (on_step_clicked simPipeline simParser
        { simTab (simReady (ECALL.none, 0) [⟨1, (ECALL.none, 0), true⟩]) with
          startChecked := true, timerActive := true, stepEnabled := false }).timerActive
        = true ∧
    (on_step_clicked simPipeline simParser
        { simTab (simReady (ECALL.none, 0) [⟨1, (ECALL.none, 0), true⟩]) with
          startChecked := true, timerActive := true, stepEnabled := false }).startChecked
        = true ∧
    (on_step_clicked simPipeline simParser
        { simTab (simReady (ECALL.none, 0) [⟨1, (ECALL.none, 0), true⟩]) with
          startChecked := true, timerActive := true, stepEnabled := false }).stepEnabled
        = false := by
  refine ⟨rfl, rfl, rfl, rfl⟩

/-- C3 (amended): when `step()` returns status code 1 and `isFinished()` is false after
it, `on_step_clicked` stops automatic stepping: on return the timer is not running,
`start` is unchecked and the step button is enabled. -/
theorem C3_breakpoint_stops_autostepping (P : Pipeline σ) (parser : Parser)
    (st : State σ) (hbp : (P.step st.pipeline).2 = 1)
    (hfin : P.isFinished (P.checkEcall true (P.step st.pipeline).1).1 = false) :
    (on_step_clicked P parser st).timerActive = false ∧
    (on_step_clicked P parser st).startChecked = false ∧
    (on_step_clicked P parser st).stepEnabled = true := by
  have hpipe : ∀ (q : State σ), (handleEcall P parser q).pipeline
      = (P.checkEcall true q.pipeline).1 := by
    intro q
    unfold handleEcall
    simp only [checkEcall_default]
    split
    · split <;> rfl
    · rfl
  have hfin2 : P.isFinished (handleEcall P parser
      (called Call.step { st with pipeline := (P.step st.pipeline).1 })).pipeline
        = false := by
    rw [hpipe]; exact hfin
  have htoggle : ∀ (q : State σ), (toggleTimer false q).timerActive = false ∧
      (toggleTimer false q).startChecked = false ∧
      (toggleTimer false q).stepEnabled = true := by
    intro q
    cases hq : q.startChecked <;>
      simp [toggleTimer, toggleTimerBody, start_setChecked, toggleTimer_fromSignal, hq]
  simp only [on_step_clicked, emit_update, called] at hfin2 ⊢
  simp only [hfin2, hbp]
  exact htoggle _

/-- C3 (amended) at a concrete input: autostepping is on, `step()` returns status code 1
and more of the program remains. -/
theorem C3_breakpoint_stops_autostepping_witness :
    (on_step_clicked simPipeline simParser
        { simTab (simReady (ECALL.none, 0) [⟨1, (ECALL.none, 0), false⟩]) with
          startChecked := true, timerActive := true, stepEnabled := false }).timerActive
        = false ∧
    (on_step_clicked simPipeline simParser
        { simTab (simReady (ECALL.none, 0) [⟨1, (ECALL.none, 0), false⟩]) with
          startChecked := true, timerActive := true, stepEnabled := false }).startChecked
        = false ∧
    (on_step_clicked simPipeline simParser
        { simTab (simReady (ECALL.none, 0) [⟨1, (ECALL.none, 0), false⟩]) with
          startChecked := true, timerActive := true, stepEnabled := false }).stepEnabled
        = true :=
  C3_breakpoint_stops_autostepping simPipeline simParser
    { simTab (simReady (ECALL.none, 0) [⟨1, (ECALL.none, 0), false⟩]) with
      startChecked := true, timerActive := true, stepEnabled := false } rfl rfl

/-! ## The execution-speed slider -/

/-- A value inside the range of a 32-bit `int` is not changed by wrapping. -/
theorem wrap32_eq_self (x : Int) (h1 : -2147483648 ≤ x) (h2 : x ≤ 2147483647) :
    wrap32 x = x := by
  unfold wrap32
  omega

/-- C7: for a slider whose range `[min, max]` fits a C++ `int`, whose static `delay` is
either not yet initialised or was initialised from this range, and every position `pos`
in the range, the slider lambda sets the timer interval to `max + min - pos` (no
wrap-around occurs on the way); the interval lies in `[min, max]`, is strictly decreasing
in `pos`, is `min` at `pos = max` and `max` at `pos = min`, and the interval set for the
position `max + min - pos` is `pos` again.  The static `delay` is afterwards the one of
this range. -/
theorem C7_slider_reversed (st : State σ) (pos : Int)
    (hmin : -2147483648 ≤ st.execSpeedMin) (hmax : st.execSpeedMax ≤ 2147483647)
    (hlo : st.execSpeedMin ≤ pos) (hhi : pos ≤ st.execSpeedMax)
    (hd : st.delay = none ∨ st.delay = some (wrap32 (st.execSpeedMax + st.execSpeedMin))) :
    (execSpeed_valueChanged pos st).timerInterval
        = st.execSpeedMax + st.execSpeedMin - pos ∧
    st.execSpeedMin ≤ (execSpeed_valueChanged pos st).timerInterval ∧
    (execSpeed_valueChanged pos st).timerInterval ≤ st.execSpeedMax ∧
    (∀ q : Int, st.execSpeedMin ≤ q → q ≤ st.execSpeedMax → pos < q →
      (execSpeed_valueChanged q st).timerInterval
        < (execSpeed_valueChanged pos st).timerInterval) ∧
    (execSpeed_valueChanged st.execSpeedMax st).timerInterval = st.execSpeedMin ∧
    (execSpeed_valueChanged st.execSpeedMin st).timerInterval = st.execSpeedMax ∧
    (execSpeed_valueChanged (execSpeed_valueChanged pos st).timerInterval st).timerInterval
        = pos ∧
    (execSpeed_valueChanged pos st).delay
        = some (wrap32 (st.execSpeedMax + st.execSpeedMin)) := by
  have key : ∀ q : Int, st.execSpeedMin ≤ q → q ≤ st.execSpeedMax →
      (execSpeed_valueChanged q st).timerInterval
        = st.execSpeedMax + st.execSpeedMin - q := by
    intro q h1 h2
    rcases hd with hd | hd <;>
      · simp only [execSpeed_valueChanged, hd, wrap32]
        omega
  have hdelay : (execSpeed_valueChanged pos st).delay
      = some (wrap32 (st.execSpeedMax + st.execSpeedMin)) := by
    rcases hd with hd | hd <;> simp [execSpeed_valueChanged, hd]
  have hp := key pos hlo hhi
  refine ⟨hp, by omega, by omega, ?_, ?_, ?_, ?_, hdelay⟩
  · intro q h1 h2 hlt
    rw [key q h1 h2, hp]
    omega
  · rw [key _ (by omega) (by omega)]
    omega
  · rw [key _ (by omega) (by omega)]
    omega
  · rw [hp, key _ (by omega) (by omega)]
    omega

/-- C7 at a concrete input: the slider `[1, 1000]` at position 250, before the static
`delay` is initialised. -/
theorem C7_slider_reversed_witness :
    (execSpeed_valueChanged 250 (simTab (simReady (ECALL.none, 0) []))).timerInterval = 751 ∧
    (execSpeed_valueChanged 1000 (simTab (simReady (ECALL.none, 0) []))).timerInterval = 1 ∧
    (execSpeed_valueChanged 1 (simTab (simReady (ECALL.none, 0) []))).timerInterval
      = 1000 :=
  ⟨(C7_slider_reversed (simTab (simReady (ECALL.none, 0) [])) 250
      (by decide) (by decide) (by decide) (by decide) (Or.inl rfl)).1,
   (C7_slider_reversed (simTab (simReady (ECALL.none, 0) [])) 250
      (by decide) (by decide) (by decide) (by decide) (Or.inl rfl)).2.2.2.2.1,
   (C7_slider_reversed (simTab (simReady (ECALL.none, 0) [])) 250
      (by decide) (by decide) (by decide) (by decide) (Or.inl rfl)).2.2.2.2.2.1⟩

/-! ## Scrolling the instruction view -/

/-- C8 fails as stated: with rows 10 to 20 visible and the fetch row 10 (the top visible
row), and likewise with the fetch row 20 (the bottom visible row), the scrollbar is set
(to 5, to 15). -/
theorem C8_scroll_at_visible_edge_counterexample :
    (10 : Int) ≤ 10 ∧ (10 : Int) ≤ 20 ∧
    (setCurrentInstruction 10 20 10 (simTab (simReady (ECALL.none, 0) []))).scrollbar = [5] ∧
    (setCurrentInstruction 10 20 20 (simTab (simReady (ECALL.none, 0) []))).scrollbar
      = [15] := by
  refine ⟨by decide, by decide, rfl, rfl⟩

/-- C8 (amended): `setCurrentInstruction` leaves the scrollbar alone exactly when the row
lies strictly between `indexTop` and `indexBot`: for `indexTop < row < indexBot` the state
is unchanged, and for `row ≤ indexTop` or `row ≥ indexBot` the scrollbar is set once, to
`row - (indexBot - indexTop) / 2` computed in `int` (both subtractions wrapped to 32 bits,
division truncating toward zero); whenever neither subtraction leaves the `int` range
that value is `row - (indexBot - indexTop) / 2` itself. -/
theorem C8_scroll_unless_strictly_inside (indexTop indexBot row : Int) (st : State σ) :
    (indexTop < row ∧ row < indexBot →
      setCurrentInstruction indexTop indexBot row st = st) ∧
    (row ≤ indexTop ∨ indexBot ≤ row →
      (setCurrentInstruction indexTop indexBot row st).scrollbar
        = st.scrollbar ++ [wrap32 (row - Int.tdiv (wrap32 (indexBot - indexTop)) 2)]) ∧
    (row ≤ indexTop ∨ indexBot ≤ row →
      -2147483648 ≤ indexBot - indexTop → indexBot - indexTop ≤ 2147483647 →
      -2147483648 ≤ row - Int.tdiv (indexBot - indexTop) 2 →
      row - Int.tdiv (indexBot - indexTop) 2 ≤ 2147483647 →
      (setCurrentInstruction indexTop indexBot row st).scrollbar
        = st.scrollbar ++ [row - Int.tdiv (indexBot - indexTop) 2]) ∧
    ((setCurrentInstruction indexTop indexBot row st).scrollbar = st.scrollbar ↔
      (indexTop < row ∧ row < indexBot)) := by
  by_cases h : row ≤ indexTop ∨ row ≥ indexBot
  · have hs : (setCurrentInstruction indexTop indexBot row st).scrollbar
        = st.scrollbar ++ [wrap32 (row - Int.tdiv (wrap32 (indexBot - indexTop)) 2)] := by
      simp [setCurrentInstruction, h]
    refine ⟨fun hin => ?_, fun _ => hs, fun _ h1 h2 h3 h4 => ?_, ?_⟩
    · omega
    · rw [hs, wrap32_eq_self _ h1 h2, wrap32_eq_self _ h3 h4]
    · rw [hs]
      constructor
      · intro heq
        have := congrArg List.length heq
        simp at this
      · intro hin
        omega
  · have hs : setCurrentInstruction indexTop indexBot row st = st := by
      simp [setCurrentInstruction, h]
    refine ⟨fun _ => hs, fun hout => ?_, fun hout => ?_, ?_⟩
    · omega
    · omega
    · rw [hs]
      constructor
      · intro _
        omega
      · intro _
        rfl

/-- C8 (amended) at concrete inputs: rows 10 to 20 visible; row 15 leaves the scrollbar
alone, row 25 sets it to 20; and with rows 0 to 10 visible the row -2147483648 sets it to
2147483643, the `int` subtraction wrapping around. -/
theorem C8_scroll_unless_strictly_inside_witness :
    setCurrentInstruction 10 20 15 (simTab (simReady (ECALL.none, 0) []))
      = simTab (simReady (ECALL.none, 0) []) ∧
    (setCurrentInstruction 10 20 25 (simTab (simReady (ECALL.none, 0) []))).scrollbar
      = [] ++ [25 - Int.tdiv (20 - 10) 2] ∧
    (setCurrentInstruction 0 10 (-2147483648)
        (simTab (simReady (ECALL.none, 0) []))).scrollbar
      = [] ++ [wrap32 (-2147483648 - Int.tdiv (wrap32 (10 - 0)) 2)] ∧
    wrap32 (-2147483648 - Int.tdiv (wrap32 (10 - 0)) 2) = 2147483643 :=
  ⟨(C8_scroll_unless_strictly_inside 10 20 15 (simTab (simReady (ECALL.none, 0) []))).1
      (by decide),
   (C8_scroll_unless_strictly_inside 10 20 25 (simTab (simReady (ECALL.none, 0) []))).2.2.1
      (by decide) (by decide) (by decide) (by decide) (by decide),
   (C8_scroll_unless_strictly_inside 0 10 (-2147483648)
      (simTab (simReady (ECALL.none, 0) []))).2.1 (by decide),
   by decide⟩

/-! ## Enabling the controls -/

/-- C9: after `restart()` the step, run, reset, start and table controls all have the
same enabled state, which is true exactly when `getTextSize()` is greater than zero; with
text size 0 all five are disabled, as they are after the constructor. -/
theorem C9_restart_enables_iff_text (P : Pipeline σ) (st st0 : State σ) :
    ((restart P st).stepEnabled = true ↔ P.getTextSize st.pipeline > 0) ∧
    (restart P st).runEnabled = (restart P st).stepEnabled ∧
    (restart P st).resetEnabled = (restart P st).stepEnabled ∧
    (restart P st).startEnabled = (restart P st).stepEnabled ∧
    (restart P st).tableEnabled = (restart P st).stepEnabled ∧
    (P.getTextSize st.pipeline = 0 →
      (restart P st).stepEnabled = false ∧ (restart P st).runEnabled = false ∧
      (restart P st).resetEnabled = false ∧ (restart P st).startEnabled = false ∧
      (restart P st).tableEnabled = false) ∧
    ((ProcessorTab st0).stepEnabled = false ∧ (ProcessorTab st0).runEnabled = false ∧
      (ProcessorTab st0).resetEnabled = false ∧ (ProcessorTab st0).startEnabled = false ∧
      (ProcessorTab st0).tableEnabled = false) := by
  refine ⟨?_, rfl, rfl, rfl, rfl, ?_, ⟨rfl, rfl, rfl, rfl, rfl⟩⟩
  · simp [restart, called, emit_update]
  · intro h0
    simp [restart, called, emit_update, h0]

/-- C9 at concrete inputs: a scripted pipeline with no program (text size 0) and one with
a program of 16 bytes. -/
theorem C9_restart_enables_iff_text_witness :
    (restart simPipeline
        (simTab { simReady (ECALL.none, 0) [] with textSize := 0 })).stepEnabled = false ∧
    (restart simPipeline (simTab (simReady (ECALL.none, 0) []))).stepEnabled = true :=
  ⟨((C9_restart_enables_iff_text simPipeline
      (simTab { simReady (ECALL.none, 0) [] with textSize := 0 })
      (simTab (simReady (ECALL.none, 0) []))).2.2.2.2.2.1 rfl).1,
   (C9_restart_enables_iff_text simPipeline (simTab (simReady (ECALL.none, 0) []))
      (simTab (simReady (ECALL.none, 0) []))).1.mpr (by decide)⟩

end ProcessorTab
